import Mathlib

/-!
# Verification of the my-keyring session broker and encryption layer

Shallow embedding of the core of the `my-keyring` repository:

* `my-keyring-shared/src/security.rs` — SipHash key pairs (the keyed-hash
  primitive itself is the external `siphasher` crate, so it is kept as an
  explicit function parameter `sip` everywhere it is used);
* `my-keyring-server/src/sse.rs` — the `Sse` session record, heartbeat and
  send logic, and the maintenance sweep;
* `my-keyring-server/src/route/api/id.rs` — the `request` handler that
  creates a session;
* `my-keyring-server/src/route/api/id/response.rs` — the `post_ulid`
  (proof submission) and `get_ulid` (listener attach) handlers;
* `my-keyring-shared/src/crypt/mod.rs` — the HKDF + AEAD encryption layer
  (namespace `CryptMod`); the HKDF expansion and the XChaCha20-Poly1305
  primitive are external crates and are kept as function parameters;
* `my-keyring-shared/src/crypt/message.rs` — the serialized form of
  `CryptedMessage` (namespace `CryptMessage`), over a byte-accurate model
  of the bincode encoding of a triple of byte vectors.

Machine integers are modelled as `Nat` (`u64`/`u128` values stay below
`2 ^ 64` / `2 ^ 128` wherever it matters and overflow never occurs in the
modelled paths).  Instants and durations are `Nat` seconds.  The shared
`RwLock<HashMap<_, _>>` pool is modelled as an association list with unique
keys, and each handler is a function from the pool state (plus its inputs)
to a result and the new pool state; `panic!`-style partiality (`unwrap` on
`None`, out-of-range slicing) is made explicit with a `panicked` result.
-/

set_option autoImplicit false

namespace MyKeyring

/-- `SipHashKeys(u64, u64)` from `security.rs`. -/
structure SipHashKeys where
  k0 : Nat
  k1 : Nat
  deriving DecidableEq, Repr

/-- `Ulid::from(SipHashKeys)` seen as a 128-bit value: the first key is the
high 64 bits, the second the low 64 bits (the `ulid` crate builds the
`u128` as `(hi << 64) | lo`). -/
def SipHashKeys.toU128 (k : SipHashKeys) : Nat :=
  k.k0 * 2 ^ 64 + k.k1

/-- The keyed-hash primitive `SipHash::new_with_keys(keys, data).hash`
(`security.rs` lines 53–61).  The actual SipHash-2-4 128-bit computation
lives in the external `siphasher` crate, so the broker is parameterized by
an arbitrary function of this type. -/
def SipHashFn : Type :=
  SipHashKeys → List Nat → Nat

/-- `PushRequest` from `my-keyring-shared/src/request.rs`: the push token
(`push_id`, a string modelled by its bytes) and the optional encrypted
payload. -/
structure PushRequest where
  push_id : List Nat
  encrypted_data : Option (List Nat)
  deriving DecidableEq, Repr

/-- `SseData` from `sse.rs`. -/
inductive SseData where
  | pushRequest (pr : PushRequest) (keys : SipHashKeys)
  | sendToken (s : String)
  deriving DecidableEq, Repr

/-- `crate::error::Error` from `my-keyring-server/src/error.rs`. -/
inductive Error where
  | notConnected
  | sseClosed
  | timeout
  deriving DecidableEq, Repr

/-- `Sse` from `sse.rs`.  The `sender` is `Option Bool`: `none` while no
listener is attached; `some b` once attached, where `b` records whether
`Sender::try_send` on the bounded channel would currently succeed (`false`
models a closed or full channel). -/
structure Sse where
  added : Nat
  timeout : Nat
  sender : Option Bool
  last_heartbeat : Nat
  data : SseData
  deriving DecidableEq, Repr

/-- `Sse::new(timeout, data)` (`sse.rs` lines 28–36); `now` stands for the
two `Instant::now()` calls. -/
def Sse.new (timeout : Nat) (data : SseData) (now : Nat) : Sse :=
  { added := now
    timeout := timeout
    sender := none
    last_heartbeat := now
    data := data }

/-- `Sse::send(&mut self, id, msg)` (`sse.rs` lines 73–91).  On success the
returned value carries the SSE frame pushed into the listener's channel;
`Err(NotConnected)` when no sender is attached, `Err(SseClosed)` when
`try_send` fails. -/
def Sse.send (sse : Sse) (id : String) (msg : String) : Except Error String :=
  match sse.sender with
  | some accepting =>
      let frame :=
        (if id = "" then "" else "event: " ++ id ++ "\n") ++ "data: " ++ msg ++ "\n\n"
      if accepting then .ok frame else .error .sseClosed
  | none => .error .notConnected

/-- `Sse::heartbeat(&mut self, id, added)` (`sse.rs` lines 58–71): `Timeout`
once the session is older than its TTL, otherwise a `ping` frame is sent
(after refreshing `last_heartbeat`) when more than 15 seconds have passed
since the last heartbeat.  Returns the possibly-mutated session and the
result. -/
def Sse.heartbeat (sse : Sse) (now : Nat) : Sse × Except Error String :=
  if sse.timeout < now - sse.added then
    (sse, .error .timeout)
  else if sse.last_heartbeat + 15 < now then
    let sse' := { sse with last_heartbeat := now }
    -- the ping payload is an opaque literal in the source; `send` never
    -- inspects it, so it is abbreviated here
    (sse', sse'.send "ping" "HB")
  else
    (sse, .ok "")

/-- The `SSE_POOL` map (`RwLock<HashMap<U128<BigEndian>, Sse>>`) as an
association list keyed by the 128-bit channel id. -/
abbrev Pool : Type :=
  List (Nat × Sse)

namespace Pool

/-- `HashMap::get`. -/
def get (p : Pool) (id : Nat) : Option Sse :=
  (List.find? (fun kv => kv.1 = id) p).map (fun kv => kv.2)

/-- `HashMap::remove` (dropping the returned value). -/
def removeKey (p : Pool) (id : Nat) : Pool :=
  List.filter (fun kv => kv.1 ≠ id) p

/-- `HashMap::insert`. -/
def insertKey (p : Pool) (id : Nat) (sse : Sse) : Pool :=
  p.removeKey id ++ [(id, sse)]

/-- `HashMap::entry(id).and_modify(f)`. -/
def andModify (p : Pool) (id : Nat) (f : Sse → Sse) : Pool :=
  List.map (fun kv => if kv.1 = id then (kv.1, f kv.2) else kv) p

end Pool

/-- Result of the `POST /api/v1/id/response/<id>` handler `post_ulid`
(`response.rs` lines 41–104).  `ok frame` is the 200 response after the
delivery frame `frame` was pushed to the listener; `errResponse e` is the
error response produced when `sse.send(..)?` propagates `e`; `panicked`
marks the slice panic on an empty push token. -/
inductive PostUlidResult where
  | notFound
  | conflict
  | forbidden
  | ok (frame : String)
  | errResponse (e : Error)
  | panicked
  deriving DecidableEq, Repr

/-- `post_ulid` (`response.rs` lines 41–104), with the ULID path parameter
already parsed to the 128-bit `id` and the request body to the claimed
proof `client_id`.  Returns the response and the new pool state:

1. look the session up under a read lock; unknown id → 404, non-
   `PushRequest` data → 409;
2. recompute `SipHash::new_with_keys(keys, &push_id.as_bytes()[1..])`
   (panics when the push token is empty) and compare; mismatch → 403;
3. remove the session under a write lock, then send the `auth` frame:
   a send error is propagated by `?` after the removal already happened. -/
def post_ulid (sip : SipHashFn) (pool : Pool) (id : Nat) (client_id : Nat) :
    PostUlidResult × Pool :=
  match pool.get id with
  | none => (.notFound, pool)
  | some sse =>
    match sse.data with
    | .sendToken _ => (.conflict, pool)
    | .pushRequest pr keys =>
      if pr.push_id = [] then
        (.panicked, pool)
      else if sip keys (pr.push_id.drop 1) ≠ client_id then
        (.forbidden, pool)
      else
        let pool' := pool.removeKey id
        match sse.send "auth" (toString id) with
        | .ok frame => (.ok frame, pool')
        | .error e => (.errResponse e, pool')

/-- Result of the `GET /api/v1/id/response/<id>` handler `get_ulid`
(`response.rs` lines 114–214).  `stream keys data` is the 200 streaming
response, established after the listener was registered and the one-time
payload handoff (which logs `keys` and `data` for the pending push
notification) succeeded; `panicked` marks the `unwrap` panics in the
handoff. -/
inductive GetUlidResult where
  | notFound
  | forbidden
  | conflict
  | stream (keys : SipHashKeys) (data : List Nat)
  | panicked
  deriving DecidableEq, Repr

/-- `get_ulid` (`response.rs` lines 114–214), with the ULID path parameter
already parsed to the 128-bit `id`; `now` stands for `Instant::now()`:

1. read the session: unknown id → 404; a listener already present → 403;
   data that is not a `PushRequest` → 409;
2. create a fresh stream and register its sender under a write lock,
   refreshing `last_heartbeat` (a fresh bounded channel accepts sends, so
   the registered sender is `some true`);
3. re-read the session and take `keys` and
   `pr.encrypted_data.clone().unwrap()` — an unconditional `unwrap` of the
   optional payload — then clear `encrypted_data` and return the stream. -/
def get_ulid (pool : Pool) (id : Nat) (now : Nat) : GetUlidResult × Pool :=
  match pool.get id with
  | none => (.notFound, pool)
  | some sse =>
    if sse.sender.isSome then
      (.forbidden, pool)
    else
      match sse.data with
      | .sendToken _ => (.conflict, pool)
      | .pushRequest _ _ =>
        let pool₁ := pool.andModify id
          (fun s => { s with last_heartbeat := now, sender := some true })
        match pool₁.get id with
        | none => (.panicked, pool₁)
        | some sse₁ =>
          match sse₁.data with
          | .sendToken _ => (.panicked, pool₁)
          | .pushRequest pr₁ keys₁ =>
            match pr₁.encrypted_data with
            | none => (.panicked, pool₁)
            | some data =>
              let pool₂ := pool₁.andModify id
                (fun s =>
                  match s.data with
                  | .pushRequest pr₂ keys₂ =>
                      { s with data := .pushRequest { pr₂ with encrypted_data := none } keys₂ }
                  | _ => s)
              (.stream keys₁ data, pool₂)

/-- `request` (`my-keyring-server/src/route/api/id.rs` lines 38–74), the
`POST /api/v1/id/request` handler.  `SipHash::new` draws a fresh random key
pair; the randomness is modelled by taking `keys` as an input.  A session
with a 5-minute TTL is stored under the 128-bit keyed hash of the push
token, and the 200 response body is the key pair encoded as a 128-bit ULID
token.  Returns the response body (as that 128-bit value) and the new
pool. -/
def request (sip : SipHashFn) (keys : SipHashKeys) (push_request : PushRequest)
    (pool : Pool) (now : Nat) : Nat × Pool :=
  let hash := sip keys push_request.push_id
  (SipHashKeys.toU128 keys,
    pool.insertKey hash (Sse.new (5 * 60) (.pushRequest push_request keys) now))

/-- One tick of the `sse_maintenance` loop (`sse.rs` lines 94–132): run
`Sse::heartbeat` on every session (keeping the mutated session), then
remove every session whose heartbeat returned an error. -/
def sse_maintenance_tick (pool : Pool) (now : Nat) : Pool :=
  List.filterMap
    (fun kv =>
      match (Sse.heartbeat kv.2 now : Sse × Except Error String) with
      | (sse', .ok _) => some (kv.1, sse')
      | (_, .error _) => none)
    pool

/-!
## Encryption layer — `my-keyring-shared/src/crypt/mod.rs`

The HKDF-SHA512 expansion and the XChaCha20-Poly1305 AEAD are external
crates (`hkdf`, `chacha20poly1305`); the module is parameterized by them.
Byte strings are `List Nat`.
-/

namespace CryptMod

/-- `SALT_LENGTH` (`crypt/mod.rs`). -/
def SALT_LENGTH : Nat := 16
/-- `KEY_LENGTH` (`crypt/mod.rs`). -/
def KEY_LENGTH : Nat := 32
/-- `NONCE_LENGTH` (`crypt/mod.rs`). -/
def NONCE_LENGTH : Nat := 24
/-- `DERIVED_LENGTH = KEY_LENGTH + NONCE_LENGTH` (`crypt/mod.rs`). -/
def DERIVED_LENGTH : Nat := KEY_LENGTH + NONCE_LENGTH

/-- The variants of `MyKeyringError` (`errors.rs`) used by this module. -/
inductive MyKeyringError where
  | incorrectHmac
  | invalidKeyLength
  | dataLengthExceeded
  | invalidCryptedMessage
  deriving DecidableEq, Repr

/-- The external primitives `crypt/mod.rs` calls into:
`hkdf` is `Hkdf::<Sha512>::new(Some(salt), ikm).expand(info, buf)` filling
a `DERIVED_LENGTH`-byte buffer; `aeadEncrypt`/`aeadDecrypt` are
`XChaCha20Poly1305::new(key).encrypt/decrypt(nonce, msg)`, with `none` for
a primitive-level failure. -/
structure Primitives where
  hkdf : List Nat → List Nat → List Nat → List Nat
  aeadEncrypt : List Nat → List Nat → List Nat → Option (List Nat)
  aeadDecrypt : List Nat → List Nat → List Nat → Option (List Nat)

/-- `CryptedMessage` as used by `crypt/mod.rs`: a salt and the
ciphertext-with-tag. -/
structure CryptedMessage where
  salt : List Nat
  data : List Nat
  deriving DecidableEq, Repr

/-- `split_keys(keys)` (`crypt/mod.rs` lines 169–180): the first
`NONCE_LENGTH` bytes are the nonce, the next `KEY_LENGTH` bytes the key;
either `try_into` fails with `InvalidKeyLength` on a short buffer. -/
def split_keys (keys : List Nat) : Except MyKeyringError (List Nat × List Nat) :=
  let nonce := keys.take NONCE_LENGTH
  let key := (keys.drop NONCE_LENGTH).take KEY_LENGTH
  if nonce.length = NONCE_LENGTH ∧ key.length = KEY_LENGTH then
    .ok (key, nonce)
  else
    .error .invalidKeyLength

/-- `derive_keys(shared, nonce, context)` (`crypt/mod.rs` lines 191–213):
the salt is the supplied one or (modelling `OsRng`) the fresh random
`rngSalt`; the HKDF output is split into key and nonce. -/
def derive_keys (prims : Primitives) (shared : List Nat) (nonce : Option (List Nat))
    (context : List Nat) (rngSalt : List Nat) :
    Except MyKeyringError (List Nat × List Nat × List Nat) :=
  let salt := match nonce with
    | some n => n
    | none => rngSalt
  let hex := prims.hkdf salt shared context
  match split_keys hex with
  | .ok (key, nonce) => .ok (salt, key, nonce)
  | .error e => .error e

/-- `crypt(shared_secret, data, context)` (`crypt/mod.rs` lines 89–110):
derive salt/key/nonce (fresh salt), AEAD-encrypt, and package the salt
with the ciphertext-with-tag. -/
def crypt (prims : Primitives) (shared_secret : List Nat) (data : List Nat)
    (context : Option (List Nat)) (rngSalt : List Nat) :
    Except MyKeyringError CryptedMessage :=
  match derive_keys prims shared_secret none (context.getD []) rngSalt with
  | .error e => .error e
  | .ok (salt, key, nonce) =>
    match prims.aeadEncrypt key nonce data with
    | none => .error .dataLengthExceeded
    | some sealed => .ok { salt := salt, data := sealed }

/-- `decrypt(shared_secret, encrypted, context)` (`crypt/mod.rs` lines
148–166): re-derive key and nonce from the message's salt, then
AEAD-decrypt (tag verification included), failing with `IncorrectHmac`. -/
def decrypt (prims : Primitives) (shared_secret : List Nat)
    (encrypted : CryptedMessage) (context : Option (List Nat)) :
    Except MyKeyringError (List Nat) :=
  match derive_keys prims shared_secret (some encrypted.salt) (context.getD [])
      encrypted.salt with
  | .error e => .error e
  | .ok (_, key, nonce) =>
    match prims.aeadDecrypt key nonce encrypted.data with
    | none => .error .incorrectHmac
    | some data => .ok data

end CryptMod

/-!
## Wire format — `my-keyring-shared/src/crypt/message.rs`

This file's `CryptedMessage` carries three fields (`salt`, `data`, `hmac`,
with `HMAC_LENGTH = 64` from `crypt.rs`) and serializes through `bincode`
as the tuple `(salt.to_vec(), hmac.to_vec(), data.clone())`.  For byte
vectors, bincode 1.x writes a little-endian `u64` length followed by the
bytes, and a tuple is the concatenation of its members' encodings; that
encoding is modelled here byte-exactly.
-/

namespace CryptMessage

/-- `SALT_LENGTH` (`crypt.rs`). -/
def SALT_LENGTH : Nat := 16
/-- `HMAC_LENGTH` (`crypt.rs`). -/
def HMAC_LENGTH : Nat := 64

/-- `CryptedMessage` (`crypt/message.rs` lines 8–15). -/
structure CryptedMessage where
  salt : List Nat
  data : List Nat
  hmac : List Nat
  deriving DecidableEq, Repr

/-- Little-endian base-256 encoding of `n` on `k` bytes. -/
def encodeLE : Nat → Nat → List Nat
  | 0, _ => []
  | k + 1, n => n % 256 :: encodeLE k (n / 256)

/-- Little-endian base-256 decoding. -/
def decodeLE : List Nat → Nat
  | [] => 0
  | b :: bs => b + 256 * decodeLE bs

/-- bincode encoding of a `Vec<u8>`: `u64` little-endian length, then the
bytes. -/
def encodeVec (v : List Nat) : List Nat :=
  encodeLE 8 v.length ++ v

/-- bincode decoding of a `Vec<u8>` from the front of `bytes`, returning
the vector and the remaining input. -/
def decodeVec (bytes : List Nat) : Option (List Nat × List Nat) :=
  if 8 ≤ bytes.length then
    let n := decodeLE (bytes.take 8)
    let rest := bytes.drop 8
    if n ≤ rest.length then
      some (rest.take n, rest.drop n)
    else
      none
  else
    none

/-- `impl serde::Serialize for CryptedMessage` (`crypt/message.rs` lines
45–55) through `bincode::serialize`: the bincode encoding of the tuple
`(salt.to_vec(), hmac.to_vec(), data.clone())`. -/
def serialize (m : CryptedMessage) : List Nat :=
  encodeVec m.salt ++ encodeVec m.hmac ++ encodeVec m.data

/-- `impl serde::Deserialize for CryptedMessage` (`crypt/message.rs` lines
57–71) through `bincode::deserialize`: decode the three byte vectors in
order, then `vec_to_salt`/`vec_to_hmac` rebuild the fixed-size arrays —
their `copy_from_slice` panics (modelled as `none`) unless the decoded
vectors have lengths `SALT_LENGTH` and `HMAC_LENGTH`. -/
def deserialize (bytes : List Nat) : Option CryptedMessage :=
  match decodeVec bytes with
  | none => none
  | some (salt, rest₁) =>
    match decodeVec rest₁ with
    | none => none
    | some (hmac, rest₂) =>
      match decodeVec rest₂ with
      | none => none
      | some (data, _) =>
        if salt.length = SALT_LENGTH ∧ hmac.length = HMAC_LENGTH then
          some { salt := salt, data := data, hmac := hmac }
        else
          none

/-- Modelled from the spec: the serialized form the spec's words describe —
"exactly `(salt, ciphertext-with-tag)`; no other metadata is embedded" —
i.e. the bincode encoding of the two fields salt and ciphertext only.
Used solely to compare the spec's description with `serialize`. -/
def serializeSpecTwoFields (m : CryptedMessage) : List Nat :=
  encodeVec m.salt ++ encodeVec m.data

end CryptMessage

/-!
## Concrete instances used by witnesses and counterexamples
-/

/-- Concrete session pool used by the C1 witness. -/
def c1pool : Pool :=
  [(3, { added := 0, timeout := 300, sender := some true, last_heartbeat := 0,
         data := .pushRequest { push_id := [97, 98], encrypted_data := none }
                  { k0 := 1, k1 := 2 } })]

/-- Concrete pool used by the C2 counterexample and witness: one session
with proof keys `(1, 2)`, push token `"ab"`, payload absent, and no
listener. -/
def c2pool : Pool :=
  [(5, { added := 0, timeout := 300, sender := none, last_heartbeat := 0,
         data := .pushRequest { push_id := [97, 98], encrypted_data := none }
                  { k0 := 1, k1 := 2 } })]

/-- Listener-less session used by the C3 counterexample: created at time 0
with the standard 5-minute TTL, no listener ever attached. -/
def c3sse : Sse :=
  { added := 0, timeout := 300, sender := none, last_heartbeat := 0,
    data := .pushRequest { push_id := [97, 98], encrypted_data := none }
             { k0 := 1, k1 := 2 } }

/-- Concrete pool used by the C10 witness: one payload-less Session with no
listener. -/
def c10pool : Pool :=
  [(8, { added := 0, timeout := 300, sender := none, last_heartbeat := 0,
         data := .pushRequest { push_id := [97, 98], encrypted_data := none }
                  { k0 := 1, k1 := 2 } })]

/-- Concrete primitives for the C8 witness: HKDF is a constant 56-byte
buffer, the AEAD prepends a `0` marker byte on encryption and strips it —
checking it — on decryption, so the round-trip contract holds. -/
def wprims : CryptMod.Primitives :=
  { hkdf := fun _ _ _ => List.replicate 56 0
    aeadEncrypt := fun _ _ p => some (0 :: p)
    aeadDecrypt := fun _ _ c =>
      match c with
      | [] => none
      | b :: p => if b = 0 then some p else none }

/-- Concrete message for the C9 counterexample: well-formed salt (16
bytes) and hmac (64 bytes) and a 1-byte ciphertext. -/
def c9msg : CryptMessage.CryptedMessage :=
  { salt := List.replicate 16 0, data := [1], hmac := List.replicate 64 2 }

/-- Concrete well-formed message for the C9 witness. -/
def c9wmsg : CryptMessage.CryptedMessage :=
  { salt := List.replicate 16 3, data := [9, 9], hmac := List.replicate 64 4 }

/-!
## Helper lemmas about the pool
-/

namespace Pool

theorem get_nil (id : Nat) : Pool.get [] id = none := rfl

theorem get_cons (kv : Nat × Sse) (p : Pool) (id : Nat) :
    Pool.get (kv :: p) id = if kv.1 = id then some kv.2 else Pool.get p id := by
  by_cases h : kv.1 = id <;> simp [Pool.get, List.find?, h]

theorem get_removeKey_self (p : Pool) (id : Nat) :
    Pool.get (Pool.removeKey p id) id = none := by
  rw [Pool.get, Option.map_eq_none']
  rw [List.find?_eq_none]
  intro kv hmem
  have hkv := List.of_mem_filter hmem
  simp only [decide_eq_true_eq] at hkv ⊢
  exact hkv

theorem get_append (p q : Pool) (id : Nat) :
    Pool.get (p ++ q) id = (Pool.get p id).orElse (fun _ => Pool.get q id) := by
  induction p with
  | nil => simp [Pool.get]
  | cons kv rest ih =>
    by_cases h : kv.1 = id
    · simp [Pool.get, List.find?, h]
    · simpa [Pool.get, List.find?, h] using ih

theorem get_insertKey_self (p : Pool) (id : Nat) (sse : Sse) :
    Pool.get (Pool.insertKey p id sse) id = some sse := by
  rw [Pool.insertKey, get_append, get_removeKey_self]
  simp [Pool.get, List.find?]

theorem get_andModify_self (p : Pool) (id : Nat) (f : Sse → Sse) :
    Pool.get (Pool.andModify p id f) id = (Pool.get p id).map f := by
  induction p with
  | nil => rfl
  | cons kv rest ih =>
    by_cases h : kv.1 = id
    · simp [Pool.andModify, Pool.get, List.find?, h]
    · simpa [Pool.andModify, Pool.get, List.find?, h] using ih

end Pool

theorem sse_maintenance_tick_get_of_not_mem (pool : Pool) (now id : Nat)
    (h : id ∉ pool.map Prod.fst) :
    Pool.get (sse_maintenance_tick pool now) id = none := by
  induction pool with
  | nil => rfl
  | cons kv rest ih =>
    have hk : kv.1 ≠ id := by
      intro hcontra
      exact h (by simp [hcontra])
    have hrest : id ∉ rest.map Prod.fst := by
      intro hcontra
      exact h (by simp [hcontra])
    cases hhb : (Sse.heartbeat kv.2 now : Sse × Except Error String) with
    | mk sse' r =>
      cases r with
      | ok m =>
        simpa [sse_maintenance_tick, List.filterMap, hhb, Pool.get_cons, hk] using ih hrest
      | error e =>
        simpa [sse_maintenance_tick, List.filterMap, hhb] using ih hrest

/-- What one maintenance tick does to the entry at `id`, assuming (as for
a `HashMap`) that the pool's keys are distinct: the session survives,
mutated by its heartbeat, exactly when the heartbeat succeeds. -/
theorem sse_maintenance_tick_get (pool : Pool) (now id : Nat)
    (hnd : (pool.map Prod.fst).Nodup) :
    Pool.get (sse_maintenance_tick pool now) id =
      (Pool.get pool id).bind (fun sse =>
        match (Sse.heartbeat sse now : Sse × Except Error String) with
        | (sse', .ok _) => some (sse')
        | (_, .error _) => none) := by
  induction pool with
  | nil => rfl
  | cons kv rest ih =>
    have hnd₁ : (rest.map Prod.fst).Nodup := (List.nodup_cons.mp hnd).2
    by_cases h : kv.1 = id
    · subst h
      have hnotmem : kv.1 ∉ rest.map Prod.fst := by
        have := (List.nodup_cons.mp hnd).1
        simpa using this
      cases hhb : (Sse.heartbeat kv.2 now : Sse × Except Error String) with
      | mk sse' r =>
        cases r with
        | ok m =>
          simp [sse_maintenance_tick, List.filterMap, hhb, Pool.get_cons]
        | error e =>
          have hrest := sse_maintenance_tick_get_of_not_mem rest now kv.1 hnotmem
          simpa [sse_maintenance_tick, List.filterMap, hhb, Pool.get_cons] using hrest
    · cases hhb : (Sse.heartbeat kv.2 now : Sse × Except Error String) with
      | mk sse' r =>
        cases r with
        | ok m =>
          simpa [sse_maintenance_tick, List.filterMap, hhb, Pool.get_cons, h] using ih hnd₁
        | error e =>
          simpa [sse_maintenance_tick, List.filterMap, hhb, Pool.get_cons, h] using ih hnd₁

/-!
## Helper lemmas about the bincode model
-/

namespace CryptMessage

theorem encodeLE_length (k n : Nat) : (encodeLE k n).length = k := by
  induction k generalizing n with
  | zero => rfl
  | succ k ih => simp [encodeLE, ih]

theorem decodeLE_encodeLE (k n : Nat) (h : n < 256 ^ k) :
    decodeLE (encodeLE k n) = n := by
  induction k generalizing n with
  | zero =>
    have : n = 0 := Nat.lt_one_iff.mp (by simpa using h)
    simp [this, encodeLE, decodeLE]
  | succ k ih =>
    have hdiv : n / 256 < 256 ^ k := by
      rw [Nat.div_lt_iff_lt_mul (by norm_num : 0 < 256)]
      calc n < 256 ^ (k + 1) := h
        _ = 256 ^ k * 256 := by ring
    simp only [encodeLE, decodeLE, ih (n / 256) hdiv]
    omega

theorem decodeVec_encodeVec (v rest : List Nat) (h : v.length < 2 ^ 64) :
    decodeVec (encodeVec v ++ rest) = some (v, rest) := by
  have hlen8 : (encodeLE 8 v.length).length = 8 := encodeLE_length 8 v.length
  have happ : encodeVec v ++ rest = encodeLE 8 v.length ++ (v ++ rest) := by
    simp [encodeVec]
  rw [happ, decodeVec]
  have htake : (encodeLE 8 v.length ++ (v ++ rest)).take 8 = encodeLE 8 v.length :=
    List.take_left' hlen8
  have hdrop : (encodeLE 8 v.length ++ (v ++ rest)).drop 8 = v ++ rest :=
    List.drop_left' hlen8
  have hdec : decodeLE (encodeLE 8 v.length) = v.length :=
    decodeLE_encodeLE 8 v.length (by simpa using h)
  rw [htake, hdrop, hdec]
  have hge : 8 ≤ (encodeLE 8 v.length ++ (v ++ rest)).length := by
    simp [hlen8]
  rw [if_pos hge, if_pos (by simp : v.length ≤ (v ++ rest).length)]
  rw [List.take_left' rfl, List.drop_left' rfl]

end CryptMessage

/-!
## Helper lemmas about `post_ulid`
-/

theorem post_ulid_of_get_none (sip : SipHashFn) (pool : Pool) (id client : Nat)
    (hget : Pool.get pool id = none) :
    post_ulid sip pool id client = (.notFound, pool) := by
  simp only [post_ulid, hget]

theorem post_ulid_of_mismatch (sip : SipHashFn) (pool : Pool) (id client : Nat)
    (sse : Sse) (pr : PushRequest) (keys : SipHashKeys)
    (hget : Pool.get pool id = some sse)
    (hdata : sse.data = SseData.pushRequest pr keys)
    (htok : pr.push_id ≠ [])
    (hne : sip keys (pr.push_id.drop 1) ≠ client) :
    post_ulid sip pool id client = (.forbidden, pool) := by
  simp only [post_ulid, hget, hdata]
  rw [if_neg htok, if_pos hne]

theorem post_ulid_of_match (sip : SipHashFn) (pool : Pool) (id client : Nat)
    (sse : Sse) (pr : PushRequest) (keys : SipHashKeys)
    (hget : Pool.get pool id = some sse)
    (hdata : sse.data = SseData.pushRequest pr keys)
    (htok : pr.push_id ≠ [])
    (heq : sip keys (pr.push_id.drop 1) = client) :
    post_ulid sip pool id client =
      (match Sse.send sse "auth" (toString id) with
        | .ok frame => (.ok frame, Pool.removeKey pool id)
        | .error e => (.errResponse e, Pool.removeKey pool id)) := by
  simp only [post_ulid, hget, hdata]
  rw [if_neg htok, if_neg (by simpa using heq)]

/-!
## Claim theorems
-/

/-- C1: for a stored Session with a non-empty push token and proof keys
`keys`, and a healthy attached listener, `post_ulid` (submit_proof)
delivers the `auth` frame exactly when the claimed proof equals the keyed
hash of the push token minus its first byte under `keys`; for every other
claimed proof it returns `Forbidden`. -/
theorem C1_submit_proof_accepts_iff_keyed_hash (sip : SipHashFn) (pool : Pool)
    (id client : Nat) (sse : Sse) (pr : PushRequest) (keys : SipHashKeys)
    (hget : Pool.get pool id = some sse)
    (hdata : sse.data = SseData.pushRequest pr keys)
    (htok : pr.push_id ≠ [])
    (hsender : sse.sender = some true) :
    ((∃ frame, (post_ulid sip pool id client).1 = .ok frame) ↔
        client = sip keys (pr.push_id.drop 1))
    ∧ (client ≠ sip keys (pr.push_id.drop 1) →
        (post_ulid sip pool id client).1 = .forbidden) := by
  by_cases hc : client = sip keys (pr.push_id.drop 1)
  · obtain ⟨f, hf⟩ : ∃ f, Sse.send sse "auth" (toString id) = .ok f := by
      simp [Sse.send, hsender]
    rw [post_ulid_of_match sip pool id client sse pr keys hget hdata htok hc.symm, hf]
    exact ⟨⟨fun _ => hc, fun _ => ⟨f, rfl⟩⟩, fun hne => absurd hc hne⟩
  · rw [post_ulid_of_mismatch sip pool id client sse pr keys hget hdata htok
      (fun h => hc h.symm)]
    constructor
    · constructor
      · rintro ⟨frame, hframe⟩
        exact absurd hframe (by simp)
      · intro h
        exact absurd h hc
    · intro _
      rfl

theorem C1_witness :
    ((∃ frame, (post_ulid (fun _ _ => 5) c1pool 3 5).1 = .ok frame) ↔
        5 = (fun (_ : SipHashKeys) (_ : List Nat) => 5) { k0 := 1, k1 := 2 }
          (List.drop 1 [97, 98]))
    ∧ (5 ≠ (fun (_ : SipHashKeys) (_ : List Nat) => 5) { k0 := 1, k1 := 2 }
          (List.drop 1 [97, 98]) →
        (post_ulid (fun _ _ => 5) c1pool 3 5).1 = .forbidden) :=
  C1_submit_proof_accepts_iff_keyed_hash (fun _ _ => 5) c1pool 3 5 _
    { push_id := [97, 98], encrypted_data := none } { k0 := 1, k1 := 2 }
    rfl rfl (by decide) rfl

/-- C2 counterexample: submitting to `c2pool` the proof `0`, which matches
under the keyed-hash function that is constantly `0`, yields the
`NotConnected` error response — but the session, present beforehand, is
gone from the resulting pool, contradicting the claim that the Session is
left in the pool on this error path. -/
theorem C2_counterexample :
    (post_ulid (fun _ _ => 0) c2pool 5 0).1 = .errResponse .notConnected
    ∧ Pool.get c2pool 5 ≠ none
    ∧ Pool.get (post_ulid (fun _ _ => 0) c2pool 5 0).2 5 = none := by
  refine ⟨rfl, by simp [c2pool, Pool.get, List.find?], ?_⟩
  rfl

/-- C2 amended: when the claimed proof matches but no listener is attached,
`post_ulid` returns the `NotConnected` error response — but the Session has
already been removed from the pool (removal happens before the delivery
attempt), so the proof is not replayable. -/
theorem C2_amended_not_connected_removes_session (sip : SipHashFn) (pool : Pool)
    (id client : Nat) (sse : Sse) (pr : PushRequest) (keys : SipHashKeys)
    (hget : Pool.get pool id = some sse)
    (hdata : sse.data = SseData.pushRequest pr keys)
    (htok : pr.push_id ≠ [])
    (heq : sip keys (pr.push_id.drop 1) = client)
    (hsender : sse.sender = none) :
    post_ulid sip pool id client = (.errResponse .notConnected, Pool.removeKey pool id)
    ∧ Pool.get (post_ulid sip pool id client).2 id = none := by
  have hres : post_ulid sip pool id client =
      (.errResponse .notConnected, Pool.removeKey pool id) := by
    rw [post_ulid_of_match sip pool id client sse pr keys hget hdata htok heq]
    rw [Sse.send, hsender]
  refine ⟨hres, ?_⟩
  rw [hres]
  exact Pool.get_removeKey_self pool id

theorem C2_amended_witness :
    post_ulid (fun _ _ => 0) c2pool 5 0 = (.errResponse .notConnected, Pool.removeKey c2pool 5)
    ∧ Pool.get (post_ulid (fun _ _ => 0) c2pool 5 0).2 5 = none :=
  C2_amended_not_connected_removes_session (fun _ _ => 0) c2pool 5 0 _
    { push_id := [97, 98], encrypted_data := none } { k0 := 1, k1 := 2 }
    rfl rfl (by decide) rfl rfl

/-- C4: when a submit succeeds (matching proof, healthy attached listener,
frame delivered), the Session is removed from the pool, and a second
`post_ulid` on the same channel id — with any claimed proof — returns
`NotFound`. -/
theorem C4_single_use_delivery (sip : SipHashFn) (pool : Pool)
    (id client client₂ : Nat) (sse : Sse) (pr : PushRequest) (keys : SipHashKeys)
    (hget : Pool.get pool id = some sse)
    (hdata : sse.data = SseData.pushRequest pr keys)
    (htok : pr.push_id ≠ [])
    (heq : sip keys (pr.push_id.drop 1) = client)
    (hsender : sse.sender = some true) :
    (∃ frame, post_ulid sip pool id client = (.ok frame, Pool.removeKey pool id))
    ∧ post_ulid sip (Pool.removeKey pool id) id client₂ =
        (.notFound, Pool.removeKey pool id) := by
  constructor
  · obtain ⟨f, hf⟩ : ∃ f, Sse.send sse "auth" (toString id) = .ok f := by
      simp [Sse.send, hsender]
    refine ⟨f, ?_⟩
    rw [post_ulid_of_match sip pool id client sse pr keys hget hdata htok heq, hf]
  · exact post_ulid_of_get_none sip (Pool.removeKey pool id) id client₂
      (Pool.get_removeKey_self pool id)

theorem C4_witness :
    (∃ frame, post_ulid (fun _ _ => 5) c1pool 3 5 = (.ok frame, Pool.removeKey c1pool 3))
    ∧ post_ulid (fun _ _ => 5) (Pool.removeKey c1pool 3) 3 9 =
        (.notFound, Pool.removeKey c1pool 3) :=
  C4_single_use_delivery (fun _ _ => 5) c1pool 3 5 9 _
    { push_id := [97, 98], encrypted_data := none } { k0 := 1, k1 := 2 }
    rfl rfl (by decide) rfl rfl

/-- C5: a submit whose claimed proof does not match the keyed hash of the
stored push token minus its first byte returns `Forbidden` and leaves the
whole pool — hence the Session, and any attached listener — unchanged; no
frame is delivered (delivery only happens in the `ok` outcome). -/
theorem C5_mismatch_forbidden_pool_unchanged (sip : SipHashFn) (pool : Pool)
    (id client : Nat) (sse : Sse) (pr : PushRequest) (keys : SipHashKeys)
    (hget : Pool.get pool id = some sse)
    (hdata : sse.data = SseData.pushRequest pr keys)
    (htok : pr.push_id ≠ [])
    (hmismatch : client ≠ sip keys (pr.push_id.drop 1)) :
    post_ulid sip pool id client = (.forbidden, pool) :=
  post_ulid_of_mismatch sip pool id client sse pr keys hget hdata htok
    (fun h => hmismatch h.symm)

theorem C5_witness :
    post_ulid (fun _ _ => 5) c1pool 3 7 = (.forbidden, c1pool) :=
  C5_mismatch_forbidden_pool_unchanged (fun _ _ => 5) c1pool 3 7 _
    { push_id := [97, 98], encrypted_data := none } { k0 := 1, k1 := 2 }
    rfl rfl (by decide) (by decide)

/-- C3 counterexample: at time 16 — far before the 300-second TTL — one
maintenance tick removes the listener-less session `c3sse` from the pool:
its heartbeat is stale by more than 15 seconds, so the sweep tries to send
a ping, `send` fails with `NotConnected` (no sender), and the error marks
the entry for removal.  This contradicts the claim that only TTL expiry
evicts a listener-less session. -/
theorem C3_counterexample :
    Pool.get (sse_maintenance_tick [(0, c3sse)] 16) 0 = none
    ∧ c3sse.sender = none
    ∧ 16 - c3sse.added ≤ c3sse.timeout := by
  refine ⟨rfl, rfl, by decide⟩

/-- C3 amended: in a pool with distinct keys, one maintenance tick removes
a listener-less Session exactly when its TTL has elapsed **or** more than
15 seconds have passed since its last heartbeat (in the latter case the
keep-alive send fails with `NotConnected`, which the sweep treats as a
dead entry); within both bounds the Session survives the sweep. -/
theorem C3_amended_listenerless_eviction (pool : Pool) (now id : Nat) (sse : Sse)
    (hnd : (pool.map Prod.fst).Nodup)
    (hget : Pool.get pool id = some sse)
    (hsender : sse.sender = none) :
    (Pool.get (sse_maintenance_tick pool now) id = none ↔
      (sse.timeout < now - sse.added ∨ sse.last_heartbeat + 15 < now)) := by
  rw [sse_maintenance_tick_get pool now id hnd, hget]
  unfold Sse.heartbeat
  by_cases h1 : sse.timeout < now - sse.added
  · simp [h1]
  · by_cases h2 : sse.last_heartbeat + 15 < now
    · simp [h1, h2, Sse.send, hsender]
    · simp [h1, h2]

theorem C3_amended_witness :
    Pool.get (sse_maintenance_tick [(0, c3sse)] 16) 0 = none ↔
      (c3sse.timeout < 16 - c3sse.added ∨ c3sse.last_heartbeat + 15 < 16) :=
  C3_amended_listenerless_eviction [(0, c3sse)] 16 0 c3sse (by decide) rfl rfl

/-- C6: attaching a listener to a Session that already holds one fails —
`get_ulid` returns the `Forbidden` response as soon as a sender is present,
whatever its health — and the pool (hence the existing listener) is left
untouched: a Session accepts at most one listener attach. -/
theorem C6_second_attach_forbidden (pool : Pool) (id now : Nat) (sse : Sse) (b : Bool)
    (hget : Pool.get pool id = some sse)
    (hsender : sse.sender = some b) :
    get_ulid pool id now = (.forbidden, pool) := by
  simp [get_ulid, hget, hsender]

theorem C6_witness :
    get_ulid c1pool 3 40 = (.forbidden, c1pool) :=
  C6_second_attach_forbidden c1pool 3 40 _ true rfl rfl

/-- C7: `request` (create) stores a fresh listener-less Session with a
5-minute TTL under the channel id `KeyedHash(proof_keys, push_token)`, and
the value returned to the requester is the proof-key pair encoded as a
128-bit value — not the channel id and not the expected proof. -/
theorem C7_create_stores_session_returns_keys (sip : SipHashFn)
    (keys : SipHashKeys) (pr : PushRequest) (pool : Pool) (now : Nat)
    (_htok : pr.push_id ≠ []) :
    (request sip keys pr pool now).1 = SipHashKeys.toU128 keys
    ∧ Pool.get (request sip keys pr pool now).2 (sip keys pr.push_id) =
        some { added := now, timeout := 5 * 60, sender := none,
               last_heartbeat := now, data := .pushRequest pr keys } := by
  refine ⟨rfl, ?_⟩
  simp only [request]
  exact Pool.get_insertKey_self pool (sip keys pr.push_id) _

theorem C7_witness :
    (request (fun _ _ => 11) { k0 := 1, k1 := 2 }
        { push_id := [97, 98], encrypted_data := none } [] 4).1 =
      SipHashKeys.toU128 { k0 := 1, k1 := 2 }
    ∧ Pool.get (request (fun _ _ => 11) { k0 := 1, k1 := 2 }
          { push_id := [97, 98], encrypted_data := none } [] 4).2
        ((fun (_ : SipHashKeys) (_ : List Nat) => 11) { k0 := 1, k1 := 2 } [97, 98]) =
      some { added := 4, timeout := 5 * 60, sender := none, last_heartbeat := 4,
             data := .pushRequest { push_id := [97, 98], encrypted_data := none }
                      { k0 := 1, k1 := 2 } } :=
  C7_create_stores_session_returns_keys (fun _ _ => 11) { k0 := 1, k1 := 2 }
    { push_id := [97, 98], encrypted_data := none } [] 4 (by decide)

/-- C10: a first, otherwise-successful listener attach (`get_ulid` on an
existing `PushRequest` Session with no listener yet) reaches the
unconditional `unwrap` of the optional payload during the one-time
handoff: it panics exactly when the Session was created without
`encrypted_data`, and returns the stream carrying the payload exactly when
a payload was supplied at creation. -/
theorem C10_attach_panics_iff_payload_absent (pool : Pool) (id now : Nat)
    (sse : Sse) (pr : PushRequest) (keys : SipHashKeys)
    (hget : Pool.get pool id = some sse)
    (hsender : sse.sender = none)
    (hdata : sse.data = SseData.pushRequest pr keys) :
    ((get_ulid pool id now).1 = .panicked ↔ pr.encrypted_data = none)
    ∧ (∀ d, pr.encrypted_data = some d →
        (get_ulid pool id now).1 = .stream keys d) := by
  have hmod : Pool.get (Pool.andModify pool id
      (fun s => { s with last_heartbeat := now, sender := some true })) id =
      some { sse with last_heartbeat := now, sender := some true } := by
    rw [Pool.get_andModify_self, hget]
    rfl
  cases hed : pr.encrypted_data with
  | none =>
    refine ⟨?_, ?_⟩
    · simp [get_ulid, hget, hsender, hdata, hmod, hed]
    · intro d hd
      exact absurd hd (by simp)
  | some d₀ =>
    refine ⟨?_, ?_⟩
    · simp [get_ulid, hget, hsender, hdata, hmod, hed]
    · intro d hd
      obtain rfl : d₀ = d := by injection hd
      simp [get_ulid, hget, hsender, hdata, hmod, hed]

theorem C10_witness :
    (((get_ulid c10pool 8 3).1 = .panicked ↔
        ({ push_id := [97, 98], encrypted_data := none } : PushRequest).encrypted_data
          = none)
      ∧ (∀ d, ({ push_id := [97, 98], encrypted_data := none } : PushRequest).encrypted_data
            = some d →
          (get_ulid c10pool 8 3).1 = .stream { k0 := 1, k1 := 2 } d)) :=
  C10_attach_panics_iff_payload_absent c10pool 8 3 _
    { push_id := [97, 98], encrypted_data := none } { k0 := 1, k1 := 2 }
    rfl rfl rfl

namespace CryptMod

theorem split_keys_of_length (hex : List Nat) (h : hex.length = DERIVED_LENGTH) :
    split_keys hex = .ok ((hex.drop NONCE_LENGTH).take KEY_LENGTH, hex.take NONCE_LENGTH) := by
  unfold split_keys
  rw [if_pos]
  refine ⟨?_, ?_⟩
  · rw [List.length_take, h]
    rfl
  · rw [List.length_take, List.length_drop, h]
    rfl

theorem derive_keys_ok (prims : Primitives) (shared : List Nat)
    (nonce : Option (List Nat)) (ctx rngSalt : List Nat)
    (hlen : (prims.hkdf (nonce.getD rngSalt) shared ctx).length = DERIVED_LENGTH) :
    derive_keys prims shared nonce ctx rngSalt =
      .ok (nonce.getD rngSalt,
           ((prims.hkdf (nonce.getD rngSalt) shared ctx).drop NONCE_LENGTH).take KEY_LENGTH,
           (prims.hkdf (nonce.getD rngSalt) shared ctx).take NONCE_LENGTH) := by
  cases nonce with
  | none =>
    simp only [Option.getD_none] at hlen ⊢
    unfold derive_keys
    simp only [split_keys_of_length _ hlen]
  | some n =>
    simp only [Option.getD_some] at hlen ⊢
    unfold derive_keys
    simp only [split_keys_of_length _ hlen]

end CryptMod

/-- C8: whenever the HKDF expansion fills its `DERIVED_LENGTH`-byte buffer
(as `Hkdf::expand` does) and the AEAD primitive round-trips (decryption of
an encryption under the same key and nonce returns the plaintext, the
contract of XChaCha20-Poly1305), `decrypt` with the same shared secret and
context inverts `crypt`: decrypting the message produced by a successful
encryption of plaintext `data` returns `data`. -/
theorem C8_crypt_decrypt_roundtrip (prims : CryptMod.Primitives)
    (shared data : List Nat) (context : Option (List Nat)) (rngSalt : List Nat)
    (msg : CryptMod.CryptedMessage)
    (hlen : ∀ s i c, (prims.hkdf s i c).length = CryptMod.DERIVED_LENGTH)
    (haead : ∀ k n p c, prims.aeadEncrypt k n p = some c →
        prims.aeadDecrypt k n c = some p)
    (henc : CryptMod.crypt prims shared data context rngSalt = .ok msg) :
    CryptMod.decrypt prims shared msg context = .ok data := by
  have hd1 := CryptMod.derive_keys_ok prims shared none (context.getD []) rngSalt
    (hlen _ _ _)
  simp only [Option.getD_none] at hd1
  unfold CryptMod.crypt at henc
  rw [hd1] at henc
  have henc' : (match prims.aeadEncrypt
      (((prims.hkdf rngSalt shared (context.getD [])).drop CryptMod.NONCE_LENGTH).take
        CryptMod.KEY_LENGTH)
      ((prims.hkdf rngSalt shared (context.getD [])).take CryptMod.NONCE_LENGTH) data with
    | none => (Except.error CryptMod.MyKeyringError.dataLengthExceeded :
        Except CryptMod.MyKeyringError CryptMod.CryptedMessage)
    | some sealed => Except.ok { salt := rngSalt, data := sealed }) = Except.ok msg := henc
  cases hae : prims.aeadEncrypt
      (((prims.hkdf rngSalt shared (context.getD [])).drop CryptMod.NONCE_LENGTH).take
        CryptMod.KEY_LENGTH)
      ((prims.hkdf rngSalt shared (context.getD [])).take CryptMod.NONCE_LENGTH)
      data with
  | none =>
    rw [hae] at henc'
    exact absurd henc' (by simp)
  | some sealed =>
    rw [hae] at henc'
    simp only at henc'
    obtain rfl : ({ salt := rngSalt, data := sealed } : CryptMod.CryptedMessage) = msg := by
      injection henc' 
    have hd2 := CryptMod.derive_keys_ok prims shared (some rngSalt) (context.getD [])
      rngSalt (hlen _ _ _)
    simp only [Option.getD_some] at hd2
    unfold CryptMod.decrypt
    rw [hd2]
    show (match prims.aeadDecrypt
        (((prims.hkdf rngSalt shared (context.getD [])).drop CryptMod.NONCE_LENGTH).take
          CryptMod.KEY_LENGTH)
        ((prims.hkdf rngSalt shared (context.getD [])).take CryptMod.NONCE_LENGTH)
        sealed with
      | none => (Except.error CryptMod.MyKeyringError.incorrectHmac :
          Except CryptMod.MyKeyringError (List Nat))
      | some d => Except.ok d) = Except.ok data
    rw [haead _ _ _ _ hae]

theorem C8_witness :
    CryptMod.decrypt wprims [1] { salt := List.replicate 16 0, data := [0, 7] } none =
      .ok [7] :=
  C8_crypt_decrypt_roundtrip wprims [1] [7] none (List.replicate 16 0)
    { salt := List.replicate 16 0, data := [0, 7] }
    (fun _ _ _ => rfl)
    (fun k n p c h => by
      injection h with h'
      rw [← h']
      rfl)
    rfl

/-- C9 counterexample: the serialized form of `c9msg` is **not** the
serialization of the two fields `(salt, ciphertext-with-tag)` the claim
describes — the implementation serializes the tuple
`(salt, hmac, data)`, embedding the separate 64-byte `hmac` field. -/
theorem C9_counterexample :
    CryptMessage.serialize c9msg ≠ CryptMessage.serializeSpecTwoFields c9msg := by
  decide

/-- C9 amended: the serialized (wire/storage) form of a `CryptedMessage`
is exactly the bincode serialization of its **three** fields, in order
`(salt, hmac, ciphertext)`, each as a length-prefixed byte vector with no
other metadata: deserializing the serialized form recovers the message
exactly. -/
theorem C9_amended_three_field_serialization (m : CryptMessage.CryptedMessage)
    (hsalt : m.salt.length = CryptMessage.SALT_LENGTH)
    (hhmac : m.hmac.length = CryptMessage.HMAC_LENGTH)
    (hdata : m.data.length < 2 ^ 64) :
    CryptMessage.serialize m =
      CryptMessage.encodeVec m.salt ++ CryptMessage.encodeVec m.hmac ++
        CryptMessage.encodeVec m.data
    ∧ CryptMessage.deserialize (CryptMessage.serialize m) = some m := by
  refine ⟨rfl, ?_⟩
  have h1 := CryptMessage.decodeVec_encodeVec m.salt
    (CryptMessage.encodeVec m.hmac ++ CryptMessage.encodeVec m.data)
    (by rw [hsalt]; norm_num [CryptMessage.SALT_LENGTH])
  have h2 := CryptMessage.decodeVec_encodeVec m.hmac (CryptMessage.encodeVec m.data)
    (by rw [hhmac]; norm_num [CryptMessage.HMAC_LENGTH])
  have h3 : CryptMessage.decodeVec (CryptMessage.encodeVec m.data) = some (m.data, []) := by
    simpa using CryptMessage.decodeVec_encodeVec m.data [] hdata
  simp only [CryptMessage.serialize, CryptMessage.deserialize, List.append_assoc, h1, h2, h3]
  simp [hsalt, hhmac]

theorem C9_witness :
    CryptMessage.serialize c9wmsg =
      CryptMessage.encodeVec c9wmsg.salt ++ CryptMessage.encodeVec c9wmsg.hmac ++
        CryptMessage.encodeVec c9wmsg.data
    ∧ CryptMessage.deserialize (CryptMessage.serialize c9wmsg) = some c9wmsg :=
  C9_amended_three_field_serialization c9wmsg rfl rfl (by decide)

end MyKeyring
